import Mathlib

/-!
A shallow embedding of the transaction-assembly utilities of `ckb-utils`
(`src/lib/utils.js` together with the TypeScript `TransactionBuilder`
module): epoch arithmetic, fee calculation, DAO cell classification, the
code- and header-dependency resolvers, the since resolver, the
witness-placeholder builder, the change-sizing build step and the input
accumulator, together with theorems settling the specification's claims
about them.

Modelling conventions:
- JavaScript `BI` big integers are `Int` (or `Nat` where the source only
  ever holds nonnegative values, such as block numbers and packed epochs);
  hex-string rendering (`toHexString`) is dropped and the numeric value is
  kept.
- Hex-string payloads (`c.data`) are byte lists; `DAO_DEPOSIT_DATA`
  ("0x0000000000000000") is eight zero bytes; `Uint64LE.unpack` is
  little-endian byte-list decoding and `Uint64LE.pack` its inverse.
- The out-of-scope collaborators (the config lookup from a script's
  codeHash/hashType identity to its CellDep list, the header store, and the
  lumos helpers `calculateMaximumWithdrawCompatible`,
  `calculateDaoEarliestSinceCompatible`, `minimalCellCapacityCompatible`)
  enter the embedded functions as parameters.
- `blockchain.WitnessArgs.pack` is modelled as the identity on the witness
  record: the skeleton stores the structured witness arguments.
- Thrown JavaScript `Error`s become `Except.error` values, one
  `BuildError` constructor per distinct error site, named after the
  specification's error taxonomy.
-/

namespace CkbUtils

/-- A lock or type script, `src/lib/utils.js` data model: codeHash,
hashType and args are hex strings compared with string equality. -/
structure Script where
  codeHash : String
  hashType : String
  args : String
deriving DecidableEq

/-- The `cellOutput` part of a cell: capacity (a `BI`, here `Int`), a lock
script and an optional type script. -/
structure CellOutput where
  capacity : Int
  lock : Script
  type : Option Script
deriving DecidableEq

/-- A cell as the builder consumes it: its output fields, its data payload
(byte list standing for the hex string) and the number of its containing
block (`none` models a missing/undefined `blockNumber`). The `outPoint`
and `blockHash` fields are never read by the embedded functions and are
omitted. -/
structure Cell where
  cellOutput : CellOutput
  data : List Nat
  blockNumber : Option Nat
deriving DecidableEq

/-- A block header: number, hash, packed epoch and DAO accumulator (the
`dao` field is only passed through to the withdraw calculator, an `Int`
here). -/
structure Header where
  number : Nat
  hash : String
  epoch : Nat
  dao : Int
deriving DecidableEq

/-- A code-cell dependency, deduplicated by (outPoint, depType); the
outPoint is split into its txHash and index fields. -/
structure CellDep where
  txHash : String
  index : Nat
  depType : String
deriving DecidableEq

/-- Unpacked witness arguments: the `lock` field (byte list, `[]` for the
empty "0x") and the optional `inputType` field. -/
structure WitnessArgs where
  lock : List Nat
  inputType : Option (List Nat)
deriving DecidableEq

/-- The in-progress transaction skeleton (lumos `TransactionSkeletonType`):
ordered inputs, outputs, cellDeps, headerDeps (block hashes), the sparse
input-since map as an association list, and witnesses. -/
structure TransactionSkeleton where
  inputs : List Cell
  outputs : List Cell
  cellDeps : List CellDep
  headerDeps : List String
  inputSinces : List (Nat × Int)
  witnesses : List WitnessArgs
deriving DecidableEq

/-- The error taxonomy of the specification; each constructor corresponds
to one thrown `Error` site of the source. -/
inductive BuildError where
  | MissingBlockNumber
  | UnresolvedScript
  | HeaderDepNotFound
  | NotAWithdrawalCell
  | InsufficientFunds
  | AlreadyPopulated
deriving DecidableEq

/-- Source `scriptEq` of `utils.js` restricted to two present scripts: field-wise
equality (the `undefined` branches never fire at the call sites embedded
here, where the second argument is always a config script). -/
def scriptEq (s0 s1 : Script) : Bool :=
  s0.codeHash == s1.codeHash && s0.hashType == s1.hashType && s0.args == s1.args

/-- Variant `scriptEq(c.cellOutput.type, s1)` where the first argument is an
optional type script and the second is defined: `undefined` on the left
compares unequal. -/
def scriptEqOpt (s0 : Option Script) (s1 : Script) : Bool :=
  match s0 with
  | none => false
  | some s => scriptEq s s1

/-- Constant `DAO_DEPOSIT_DATA` ("0x0000000000000000"): eight zero bytes. -/
def daoDepositData : List Nat := List.replicate 8 0

/-- Source `isDAODeposit`: the type script equals the config's DAO script and the
payload is the zero sentinel. The DAO script is a parameter (config
lookup `defaultScript("DAO")` is an external collaborator). -/
def isDAODeposit (dao : Script) (c : Cell) : Bool :=
  scriptEqOpt c.cellOutput.type dao && c.data == daoDepositData

/-- Source `isDAOWithdrawal`: the type script equals the config's DAO script and
the payload differs from the zero sentinel. -/
def isDAOWithdrawal (dao : Script) (c : Cell) : Bool :=
  scriptEqOpt c.cellOutput.type dao && c.data != daoDepositData

/-- Lumos `Uint64LE.unpack`: little-endian byte-list decoding. -/
def le64unpack (bs : List Nat) : Nat :=
  bs.foldr (fun b acc => b + 256 * acc) 0

/-- Lumos `Uint64LE.pack`: the eight little-endian bytes of a number. -/
def le64pack (n : Nat) : List Nat :=
  (List.range 8).map (fun k => n / 256 ^ k % 256)

/-- Modelled from the spec: `isScript` is imported by the builder module
from `./utils` but absent from the provided compiled `utils.js`; per the
data model, two scripts are "the same kind" if codeHash+hashType match
regardless of args. -/
def isScript (s0 s1 : Script) : Bool :=
  s0.codeHash == s1.codeHash && s0.hashType == s1.hashType

/-- Source `parseEpoch`: pure bit extraction from a packed nonnegative value.
On nonnegative big integers `shr 40 / and 0xfff / and 0xffffff` are
division and remainder by the matching powers of two: 2 to the 40th is
1099511627776, 2 to the 24th is 16777216, 0xfff + 1 = 4096 and
0xffffff + 1 = 16777216. -/
structure Epoch where
  length : Int
  index : Int
  number : Int
deriving DecidableEq

def parseEpoch (e : Nat) : Epoch :=
  { length := ((e / 1099511627776) % 4096 : Nat)
  , index := ((e / 16777216) % 4096 : Nat)
  , number := ((e % 16777216 : Nat)) }

/-- Source `epochCompare`: numbers first; ties broken by cross-multiplying
index and length, returning -1, 0 or 1. -/
def epochCompare (e0 e1 : Epoch) : Int :=
  if e0.number < e1.number then -1
  else if e1.number < e0.number then 1
  else
    let v0 := e0.index * e1.length
    let v1 := e1.index * e0.length
    if v0 < v1 then -1
    else if v1 < v0 then 1
    else 0

/-- Source `stringifyEpoch`: `length.shl(40) + index.shl(24) + number` as an
unbounded integer (the hex rendering of the source is dropped). -/
def stringifyEpoch (e : Epoch) : Int :=
  e.length * 1099511627776 + e.index * 16777216 + e.number

/-- Source `calculateFee`: `size*rate` divided by 1000, plus one iff the
truncated quotient times 1000 falls short of the product. -/
def calculateFee (size feeRate : Nat) : Nat :=
  let base := size * feeRate
  let fee := base / 1000
  if fee * 1000 < base then fee + 1 else fee

/-- Insertion into a JavaScript `Set`/keyed `Map`: appended at the back on
first occurrence, left where it was otherwise. -/
def insertUnique [DecidableEq A] (acc : List A) (a : A) : List A :=
  if a ∈ acc then acc else acc ++ [a]

/-- Folding a whole list into a JavaScript `Set`, keeping first-insertion
order. -/
def dedupInto [DecidableEq A] (acc : List A) : List A → List A
  | [] => acc
  | a :: as_ => dedupInto (insertUnique acc a) as_

/-- The contents of a JavaScript `Set` populated from a list: the list
with every later duplicate dropped, first-insertion order preserved. -/
def dedupFirst [DecidableEq A] (l : List A) : List A :=
  dedupInto [] l

/-- The script collection of `addCellDeps`: every lock script of the
inputs, then every present type script of outputs and inputs, in source
iteration order. -/
def collectScripts (inputs outputs : List Cell) : List Script :=
  inputs.map (fun c => c.cellOutput.lock) ++
    (outputs ++ inputs).filterMap (fun c => c.cellOutput.type)

/-- The per-script lookup loop of `addCellDeps`: each script is resolved
through the config-derived map keyed by codeHash and hashType; an
unresolvable script throws (`UnresolvedScript`). -/
def resolveScripts (lookup : String → String → Option (List CellDep)) :
    List Script → Except BuildError (List (List CellDep))
  | [] => Except.ok []
  | s :: ss =>
    match lookup s.codeHash s.hashType with
    | none => Except.error BuildError.UnresolvedScript
    | some ds =>
      match resolveScripts lookup ss with
      | Except.error e => Except.error e
      | Except.ok rest => Except.ok (ds :: rest)

/-- Source `addCellDeps`: refuses a non-empty cellDeps structure, collects the
scripts, resolves each to its CellDep list and emits the union
deduplicated by (outPoint, depType) in first-seen order. The config
machinery (`getConfig`, `defaultScript`, `defaultCellDeps`) is abstracted
into the `lookup` parameter, keyed like the source by the
codeHash/hashType serialization. -/
def addCellDeps (lookup : String → String → Option (List CellDep))
    (tx : TransactionSkeleton) : Except BuildError TransactionSkeleton :=
  if tx.cellDeps.length ≠ 0 then Except.error BuildError.AlreadyPopulated
  else
    match resolveScripts lookup (collectScripts tx.inputs tx.outputs) with
    | Except.error e => Except.error e
    | Except.ok dss => Except.ok { tx with cellDeps := dedupFirst dss.flatten }

/-- The per-input loop of `addHeaderDeps`, accumulating into the
first-insertion-ordered set: an input without a block number throws;
a DAO deposit adds the hash of its own containing block; a DAO
withdrawal adds the hash of its own containing block and the hash of
the block decoded from its payload. -/
def addHeaderDepsGo (dao : Script) (b2h : Nat → String) :
    List Cell → List String → Except BuildError (List String)
  | [], acc => Except.ok acc
  | c :: cs, acc =>
    match c.blockNumber with
    | none => Except.error BuildError.MissingBlockNumber
    | some bn =>
      if isDAODeposit dao c then
        addHeaderDepsGo dao b2h cs (insertUnique acc (b2h bn))
      else if isDAOWithdrawal dao c then
        addHeaderDepsGo dao b2h cs
          (insertUnique (insertUnique acc (b2h bn)) (b2h (le64unpack c.data)))
      else
        addHeaderDepsGo dao b2h cs acc

/-- Source `addHeaderDeps`: refuses a non-empty headerDeps structure, then pushes
the deduplicated block hashes collected from the inputs. The
block-number-to-hash resolution (`getHeaderByNumber(...).hash`) is the
`b2h` parameter. -/
def addHeaderDeps (dao : Script) (b2h : Nat → String)
    (tx : TransactionSkeleton) : Except BuildError TransactionSkeleton :=
  if tx.headerDeps.length ≠ 0 then Except.error BuildError.AlreadyPopulated
  else
    match addHeaderDepsGo dao b2h tx.inputs [] with
    | Except.error e => Except.error e
    | Except.ok hs => Except.ok { tx with headerDeps := hs }

/-- Source `withdrawedDaoSince`: rejects non-withdrawal cells, otherwise computes
`calculateDaoEarliestSinceCompatible(depositHeader.epoch,
withdrawalHeader.epoch)` where the deposit header comes from the block
number decoded from the payload and the withdrawal header from the cell's
containing block. The lumos since formula is the `earliestSince`
parameter; the header store is `getHeader`. -/
def withdrawedDaoSince (dao : Script) (getHeader : Nat → Header)
    (earliestSince : Nat → Nat → Int) (c : Cell) : Except BuildError Int :=
  if isDAOWithdrawal dao c then
    Except.ok (earliestSince
      (getHeader (le64unpack c.data)).epoch
      (getHeader (c.blockNumber.getD 0)).epoch)
  else
    Except.error BuildError.NotAWithdrawalCell

/-- The per-input loop of `addInputSinces`: every DAO-withdrawal input at
index `i` receives its computed since value. -/
def addInputSincesGo (dao : Script) (sinceOf : Cell → Except BuildError Int) :
    List Cell → Nat → Except BuildError (List (Nat × Int))
  | [], _ => Except.ok []
  | c :: cs, i =>
    if isDAOWithdrawal dao c then
      match sinceOf c with
      | Except.error e => Except.error e
      | Except.ok s =>
        match addInputSincesGo dao sinceOf cs (i + 1) with
        | Except.error e => Except.error e
        | Except.ok rest => Except.ok ((i, s) :: rest)
    else
      addInputSincesGo dao sinceOf cs (i + 1)

/-- Source `addInputSinces`: refuses a non-empty inputSinces structure, then
records a since value for every DAO-withdrawal input. -/
def addInputSinces (dao : Script) (sinceOf : Cell → Except BuildError Int)
    (tx : TransactionSkeleton) : Except BuildError TransactionSkeleton :=
  if tx.inputSinces.length ≠ 0 then Except.error BuildError.AlreadyPopulated
  else
    match addInputSincesGo dao sinceOf tx.inputs 0 with
    | Except.error e => Except.error e
    | Except.ok ps => Except.ok { tx with inputSinces := ps }

/-- The 65-byte zero-filled signature placeholder "0x" + "00".repeat(65). -/
def signaturePlaceholder : List Nat := List.replicate 65 0

/-- The per-input loop of `addWitnessPlaceholders`: while the padding
countdown is positive, an input whose lock equals the account lock gets
the 65-byte placeholder and decrements the countdown; a DAO-deposit input
additionally gets an `inputType` holding the little-endian position, in
the already-built headerDeps list, of the hash of the block whose number
is decoded from its payload — absence throws (`HeaderDepNotFound`). -/
def addWitnessPlaceholdersGo (dao accountLock : Script) (b2h : Nat → String)
    (headerDeps : List String) :
    List Cell → Nat → Except BuildError (List WitnessArgs)
  | [], _ => Except.ok []
  | c :: cs, countDown =>
    let pad := decide (0 < countDown) && scriptEq c.cellOutput.lock accountLock
    let lockField : List Nat := if pad then signaturePlaceholder else []
    let countDown' := if pad then countDown - 1 else countDown
    match
      (if isDAODeposit dao c then
        match headerDeps.findIdx? (fun v => v == b2h (le64unpack c.data)) with
        | none => Except.error BuildError.HeaderDepNotFound
        | some idx => Except.ok (some (le64pack idx))
      else Except.ok none : Except BuildError (Option (List Nat))) with
    | Except.error e => Except.error e
    | Except.ok it =>
      match addWitnessPlaceholdersGo dao accountLock b2h headerDeps cs countDown' with
      | Except.error e => Except.error e
      | Except.ok ws => Except.ok ({ lock := lockField, inputType := it } :: ws)

/-- Source `addWitnessPlaceholders`: refuses a non-empty witnesses structure;
the padding countdown starts at 1 (only the first matching occurrence) or
at the number of inputs (every occurrence) when PWLOCK is configured and
the account lock is of the PWLOCK kind; then runs the per-input loop.
`pwlockInConfig` models the `"PWLOCK" in getConfig().SCRIPTS` test and
`pwlockScript` the config's PWLOCK script. -/
def addWitnessPlaceholders (dao : Script) (pwlockInConfig : Bool)
    (pwlockScript accountLock : Script) (b2h : Nat → String)
    (tx : TransactionSkeleton) : Except BuildError TransactionSkeleton :=
  if tx.witnesses.length ≠ 0 then Except.error BuildError.AlreadyPopulated
  else
    match addWitnessPlaceholdersGo dao accountLock b2h tx.headerDeps
        tx.inputs
        (if pwlockInConfig && isScript accountLock pwlockScript then
          tx.inputs.length
        else 1) with
    | Except.error e => Except.error e
    | Except.ok ws => Except.ok { tx with witnesses := ws }

/-- Source `getCkbDelta`: folds the inputs, adding for a DAO deposit the
DAO-computed maximum withdrawable amount (the lumos calculator is the
`maxWithdraw` parameter, applied to the cell and the `dao` fields of the
header of the block decoded from the payload and of the header of the
cell's containing block, the source's `depositHeader` and
`withdrawalHeader`) and for every other cell its stated capacity; then
subtracts every output's stated capacity. The non-null assertion
`c.blockNumber!` is modelled by `Option.getD 0`. -/
def getCkbDelta (dao : Script) (getHeader : Nat → Header)
    (maxWithdraw : Cell → Int → Int → Int)
    (inputs outputs : List Cell) : Int :=
  outputs.foldl (fun acc c => acc - c.cellOutput.capacity)
    (inputs.foldl (fun acc c =>
      if isDAODeposit dao c then
        acc + maxWithdraw c (getHeader (le64unpack c.data)).dao
          (getHeader (c.blockNumber.getD 0)).dao
      else
        acc + c.cellOutput.capacity) 0)

/-- The change cell of `buildWithChange`: capacity is the delta, lock is
the account lock, no type script, empty data. -/
def changeCell (accountLock : Script) (delta : Int) : Cell :=
  { cellOutput := { capacity := delta, lock := accountLock, type := none }
  , data := []
  , blockNumber := none }

/-- Source `buildWithChange`: sizes the change output (nothing when the delta is
zero; a single change cell when the delta reaches the minimal viable cell
capacity — the lumos `minimalCellCapacityCompatible` of the change cell is
the `minimalCapacity` parameter — and `InsufficientFunds` otherwise), then
assembles the skeleton and runs the four resolvers in source order. The
block-hash resolution passed to the resolvers is
`getHeaderByNumber(...).hash`. -/
def sizeChangeCells (accountLock : Script) (minimalCapacity delta : Int) :
    Except BuildError (List Cell) :=
  if delta = 0 then Except.ok []
  else if minimalCapacity ≤ delta then
    Except.ok [changeCell accountLock delta]
  else Except.error BuildError.InsufficientFunds

/-- A fresh skeleton holding the given inputs and outputs. -/
def freshSkeleton (inputs outputs : List Cell) : TransactionSkeleton :=
  { inputs := inputs, outputs := outputs, cellDeps := [], headerDeps := []
  , inputSinces := [], witnesses := [] }

def buildWithChange (dao : Script)
    (lookup : String → String → Option (List CellDep))
    (getHeader : Nat → Header) (earliestSince : Nat → Nat → Int)
    (pwlockInConfig : Bool) (pwlockScript : Script)
    (accountLock : Script) (minimalCapacity : Int)
    (inputs outputs : List Cell) (delta : Int) :
    Except BuildError TransactionSkeleton :=
  match sizeChangeCells accountLock minimalCapacity delta with
  | Except.error e => Except.error e
  | Except.ok cc =>
    match addCellDeps lookup (freshSkeleton inputs (outputs ++ cc)) with
    | Except.error e => Except.error e
    | Except.ok tx1 =>
      match addHeaderDeps dao (fun bn => (getHeader bn).hash) tx1 with
      | Except.error e => Except.error e
      | Except.ok tx2 =>
        match addInputSinces dao
            (withdrawedDaoSince dao getHeader earliestSince) tx2 with
        | Except.error e => Except.error e
        | Except.ok tx3 =>
          addWitnessPlaceholders dao pwlockInConfig pwlockScript accountLock
            (fun bn => (getHeader bn).hash) tx3

/-- The accumulated inputs and outputs of a `TransactionBuilder`. -/
structure BuilderState where
  inputs : List Cell
  outputs : List Cell
deriving DecidableEq

/-- Source `add(source, position, ...cells)`: mutates the matching list first
(unshift for "start", push otherwise), and only then — for inputs — checks
that every accumulated input carries a block number, throwing
`MissingBlockNumber` while leaving the mutation in place. The result pairs
the (already mutated) state with the optional error. -/
def addCells (st : BuilderState) (source position : String)
    (cells : List Cell) : BuilderState × Option BuildError :=
  if source == "input" then
    let newInputs :=
      if position == "start" then cells ++ st.inputs else st.inputs ++ cells
    let st' := { st with inputs := newInputs }
    if newInputs.any (fun c => c.blockNumber.isNone) then
      (st', some BuildError.MissingBlockNumber)
    else
      (st', none)
  else
    let newOutputs :=
      if position == "start" then cells ++ st.outputs else st.outputs ++ cells
    ({ st with outputs := newOutputs }, none)

section Lemmas

variable {A : Type} [DecidableEq A]

lemma mem_insertUnique (l : List A) (a x : A) :
    x ∈ insertUnique l a ↔ x ∈ l ∨ x = a := by
  unfold insertUnique
  split
  · constructor
    · exact Or.inl
    · rintro (h | rfl) <;> assumption
  · simp

lemma nodup_insertUnique (l : List A) (a : A) (h : l.Nodup) :
    (insertUnique l a).Nodup := by
  unfold insertUnique
  split
  · exact h
  · rename_i hna
    rw [List.nodup_append]
    refine ⟨h, List.nodup_singleton a, ?_⟩
    intro x hx hxa
    simp only [List.mem_singleton] at hxa
    subst hxa
    exact hna hx

lemma mem_dedupInto (l : List A) : ∀ (acc : List A) (x : A),
    x ∈ dedupInto acc l ↔ x ∈ acc ∨ x ∈ l := by
  induction l with
  | nil => simp [dedupInto]
  | cons a as_ ih =>
    intro acc x
    simp only [dedupInto, ih, mem_insertUnique, List.mem_cons]
    tauto

lemma nodup_dedupInto (l : List A) : ∀ (acc : List A), acc.Nodup →
    (dedupInto acc l).Nodup := by
  induction l with
  | nil => intro acc h; exact h
  | cons a as_ ih =>
    intro acc h
    exact ih _ (nodup_insertUnique _ _ h)

lemma mem_dedupFirst (l : List A) (x : A) : x ∈ dedupFirst l ↔ x ∈ l := by
  simp [dedupFirst, mem_dedupInto]

lemma nodup_dedupFirst (l : List A) : (dedupFirst l).Nodup :=
  nodup_dedupInto l [] List.nodup_nil

lemma dedupInto_append (l1 l2 acc : List A) :
    dedupInto acc (l1 ++ l2) = dedupInto (dedupInto acc l1) l2 := by
  induction l1 generalizing acc with
  | nil => rfl
  | cons a as_ ih => exact ih (insertUnique acc a)

lemma foldl_add_shift {B : Type} (g : Int → B → Int) (f : B → Int)
    (hg : ∀ acc c, g acc c = acc + f c) :
    ∀ (l : List B) (a : Int), l.foldl g a = a + (l.map f).sum := by
  intro l
  induction l with
  | nil => simp
  | cons c cs ih =>
    intro a
    simp only [List.foldl_cons, ih, hg, List.map_cons, List.sum_cons]
    ring

lemma foldl_sub_shift {B : Type} (g : Int → B → Int) (f : B → Int)
    (hg : ∀ acc c, g acc c = acc - f c) :
    ∀ (l : List B) (a : Int), l.foldl g a = a - (l.map f).sum := by
  intro l
  induction l with
  | nil => simp
  | cons c cs ih =>
    intro a
    simp only [List.foldl_cons, ih, hg, List.map_cons, List.sum_cons]
    ring

end Lemmas

/-- The specification's per-cell effective capacity: the DAO-computed
maximum withdrawable amount for a maturity-deposit cell — the calculator
applied to the deposit header and the withdrawal-time header, the two
headers `getCkbDelta` resolves (`depositHeader` from the block number
decoded from the payload, `withdrawalHeader` from the cell's containing
block) — and the stated capacity for every other cell. -/
def effectiveCapacity (dao : Script) (getHeader : Nat → Header)
    (maxWithdraw : Cell → Int → Int → Int) (c : Cell) : Int :=
  if isDAODeposit dao c then
    maxWithdraw c (getHeader (le64unpack c.data)).dao
      (getHeader (c.blockNumber.getD 0)).dao
  else
    c.cellOutput.capacity

/-- C2: for every builder state, `getCkbDelta` returns the sum over input
cells of their effective capacity minus the sum over output cells of their
stated capacity, where the effective capacity of a maturity-deposit cell
is the DAO-computed maximum withdrawable amount derived from the deposit
header and the withdrawal-time header, and the effective capacity of every
other cell is its stated capacity. -/
theorem claim_C2_getCkbDelta (dao : Script) (getHeader : Nat → Header)
    (maxWithdraw : Cell → Int → Int → Int) (inputs outputs : List Cell) :
    getCkbDelta dao getHeader maxWithdraw inputs outputs =
      (inputs.map (effectiveCapacity dao getHeader maxWithdraw)).sum -
        (outputs.map (fun c => c.cellOutput.capacity)).sum := by
  unfold getCkbDelta
  have hout := foldl_sub_shift (fun acc c => acc - c.cellOutput.capacity)
    (fun c => c.cellOutput.capacity) (fun _ _ => rfl) outputs
  have hin := foldl_add_shift
    (fun acc c =>
      if isDAODeposit dao c then
        acc + maxWithdraw c (getHeader (le64unpack c.data)).dao
          (getHeader (c.blockNumber.getD 0)).dao
      else
        acc + c.cellOutput.capacity)
    (effectiveCapacity dao getHeader maxWithdraw)
    (by
      intro acc c
      by_cases h : isDAODeposit dao c <;> simp [effectiveCapacity, h])
    inputs 0
  rw [hout, hin]
  simp

lemma calculateFee_eq_ceil (size feeRate : Nat) :
    calculateFee size feeRate = (size * feeRate + 999) / 1000 := by
  simp only [calculateFee]
  have h1 := Nat.div_add_mod (size * feeRate) 1000
  have h2 := Nat.div_add_mod (size * feeRate + 999) 1000
  have h3 := Nat.mod_lt (size * feeRate) (show 0 < 1000 by decide)
  have h4 := Nat.mod_lt (size * feeRate + 999) (show 0 < 1000 by decide)
  split <;> omega

/-- C6: for all nonnegative integers size and rate, `calculateFee` equals
size*rate divided by 1000, rounded up iff the remainder is non-zero;
consequently `calculateFee size rate * 1000` is at least `size * rate`,
`calculateFee 0 rate = 0`, and `calculateFee` is monotone non-decreasing
in the size and in the rate. -/
theorem claim_C6_fee (size feeRate size2 feeRate2 : Nat) :
    (size * feeRate % 1000 = 0 →
      calculateFee size feeRate = size * feeRate / 1000) ∧
    (size * feeRate % 1000 ≠ 0 →
      calculateFee size feeRate = size * feeRate / 1000 + 1) ∧
    size * feeRate ≤ calculateFee size feeRate * 1000 ∧
    calculateFee 0 feeRate = 0 ∧
    (size ≤ size2 → calculateFee size feeRate ≤ calculateFee size2 feeRate) ∧
    (feeRate ≤ feeRate2 →
      calculateFee size feeRate ≤ calculateFee size feeRate2) := by
  have hmod := Nat.div_add_mod (size * feeRate) 1000
  have hceil := calculateFee_eq_ceil size feeRate
  have hceil2 := Nat.div_add_mod (size * feeRate + 999) 1000
  have h4 := Nat.mod_lt (size * feeRate + 999) (show 0 < 1000 by decide)
  refine ⟨?_, ?_, ?_, ?_, ?_, ?_⟩
  · intro h; omega
  · intro h; omega
  · omega
  · simp [calculateFee]
  · intro h
    rw [calculateFee_eq_ceil, calculateFee_eq_ceil]
    exact Nat.div_le_div_right
      (Nat.add_le_add_right (Nat.mul_le_mul_right _ h) 999)
  · intro h
    rw [calculateFee_eq_ceil, calculateFee_eq_ceil]
    exact Nat.div_le_div_right
      (Nat.add_le_add_right (Nat.mul_le_mul_left _ h) 999)

/-- Witness for C6: the fee formula, the exact-division case and size
monotonicity evaluated at size 400, rate 1000 against size 500. -/
theorem claim_C6_fee_witness :
    calculateFee 400 1000 = 400 * 1000 / 1000 ∧
    calculateFee 400 1000 ≤ calculateFee 500 1000 :=
  ⟨(claim_C6_fee 400 1000 500 1000).1 (by decide),
    (claim_C6_fee 400 1000 500 1000).2.2.2.2.1 (by decide)⟩

lemma epochCompare_antisym (a b : Epoch) :
    epochCompare a b = -(epochCompare b a) := by
  simp only [epochCompare]
  split_ifs <;> first | rfl | omega

lemma epochCompare_le_zero (a b : Epoch) :
    epochCompare a b ≤ 0 ↔
      (a.number < b.number ∨
        (a.number = b.number ∧ a.index * b.length ≤ b.index * a.length)) := by
  simp only [epochCompare]
  rcases lt_trichotomy a.number b.number with h | h | h
  · rw [if_pos h]
    exact iff_of_true (by norm_num) (Or.inl h)
  · rw [if_neg (by omega), if_neg (by omega)]
    by_cases h34 : a.index * b.length < b.index * a.length
    · rw [if_pos h34]
      exact iff_of_true (by norm_num) (Or.inr ⟨h, le_of_lt h34⟩)
    · rw [if_neg h34]
      by_cases h43 : b.index * a.length < a.index * b.length
      · rw [if_pos h43]
        constructor
        · intro hc
          norm_num at hc
        · rintro (hc | ⟨_, hc⟩)
          · omega
          · linarith
      · rw [if_neg h43]
        exact iff_of_true (by norm_num) (Or.inr ⟨h, by linarith⟩)
  · rw [if_neg (by omega), if_pos h]
    constructor
    · intro hc
      norm_num at hc
    · rintro (hc | ⟨hc, _⟩) <;> omega

lemma cross_mul_trans (ai al bi bl ci cl : Int) (hal : 0 ≤ al)
    (hbl : 0 < bl) (hcl : 0 ≤ cl) (h1 : ai * bl ≤ bi * al)
    (h2 : bi * cl ≤ ci * bl) : ai * cl ≤ ci * al := by
  have k3 : ai * cl * bl ≤ ci * al * bl :=
    calc ai * cl * bl = ai * bl * cl := by ring
    _ ≤ bi * al * cl := mul_le_mul_of_nonneg_right h1 hcl
    _ = bi * cl * al := by ring
    _ ≤ ci * bl * al := mul_le_mul_of_nonneg_right h2 hal
    _ = ci * al * bl := by ring
  exact le_of_mul_le_mul_right k3 hbl

lemma epochCompare_self (e : Epoch) : epochCompare e e = 0 := by
  simp [epochCompare]

/-- C3 (amended): `epochCompare` is antisymmetric in the comparator sense
(compare(a,b) = -compare(b,a)) for all epochs; the comparison is
transitive for epochs with nonnegative lengths provided the middle
epoch's length is nonzero; and the serialize/parse round-trip
compare(parse(stringify(e)), e) == 0 holds for every canonical epoch
(fields within their 24/12/12-bit ranges). -/
theorem claim_C3_epochOrder_amended :
    (∀ a b : Epoch, epochCompare a b = -(epochCompare b a)) ∧
    (∀ a b c : Epoch, 0 ≤ a.length → 0 < b.length → 0 ≤ c.length →
      epochCompare a b ≤ 0 → epochCompare b c ≤ 0 →
      epochCompare a c ≤ 0) ∧
    (∀ e : Epoch, 0 ≤ e.number → e.number < 16777216 → 0 ≤ e.index →
      e.index < 4096 → 0 ≤ e.length → e.length < 4096 →
      epochCompare (parseEpoch (stringifyEpoch e).toNat) e = 0) := by
  refine ⟨epochCompare_antisym, ?_, ?_⟩
  · intro a b c hal hbl hcl hab hbc
    rw [epochCompare_le_zero] at hab hbc ⊢
    rcases hab with hab | ⟨hab, pab⟩
    · rcases hbc with hbc | ⟨hbc, _⟩
      · exact Or.inl (hab.trans hbc)
      · exact Or.inl (by omega)
    · rcases hbc with hbc | ⟨hbc, pbc⟩
      · exact Or.inl (by omega)
      · exact Or.inr ⟨hab.trans hbc,
          cross_mul_trans a.index a.length b.index b.length c.index c.length
            hal hbl hcl pab pbc⟩
  · intro e h1 h2 h3 h4 h5 h6
    obtain ⟨L, I, N⟩ := e
    have hp : parseEpoch (stringifyEpoch (Epoch.mk L I N)).toNat =
        Epoch.mk L I N := by
      simp only [parseEpoch, stringifyEpoch, Epoch.mk.injEq]
      simp only [] at h1 h2 h3 h4 h5 h6
      refine ⟨?_, ?_, ?_⟩ <;> omega
    rw [hp]
    exact epochCompare_self _

/-- Witness for C3 (amended): transitivity applied to the epochs 5+1/2,
5+2/4 and 5+1/1 (all with positive length), and the round-trip applied to
the epoch with length 7, index 3, number 9. -/
theorem claim_C3_epochOrder_witness :
    epochCompare (Epoch.mk 2 1 5) (Epoch.mk 1 1 5) ≤ 0 ∧
    epochCompare
      (parseEpoch (stringifyEpoch (Epoch.mk 7 3 9)).toNat) (Epoch.mk 7 3 9)
      = 0 :=
  ⟨claim_C3_epochOrder_amended.2.1 (Epoch.mk 2 1 5) (Epoch.mk 4 2 5)
      (Epoch.mk 1 1 5) (by decide) (by decide) (by decide) (by decide)
      (by decide),
    claim_C3_epochOrder_amended.2.2 (Epoch.mk 7 3 9) (by decide) (by decide)
      (by decide) (by decide) (by decide) (by decide)⟩

/-- C3 (counterexample): the claim asserts `epochCompare` is transitive
for all epochs; it is not. The packed values 0x1000000 (number 0, index 1,
length 0), 0x0 (all fields 0) and 0x50000000000 (length 5, index 0,
number 0) parse to epochs a, b, c with compare(a,b) = 0 and
compare(b,c) = 0 but compare(a,c) = 1, because a zero length annihilates
the cross-multiplied comparison. -/
theorem claim_C3_epochOrder_counterexample :
    epochCompare (parseEpoch 16777216) (parseEpoch 0) ≤ 0 ∧
    epochCompare (parseEpoch 0) (parseEpoch (5 * 1099511627776)) ≤ 0 ∧
    ¬ epochCompare (parseEpoch 16777216) (parseEpoch (5 * 1099511627776))
      ≤ 0 := by
  refine ⟨by decide, by decide, by decide⟩

/-- The specification's per-input header-dependency contribution: nothing
for an ordinary input, the hash of its own containing block for a
maturity-deposit input, and both the hash of its own containing block and
the hash of the block containing the original deposit (decoded from its
payload) for a maturity-withdrawal input. -/
def headerContribution (dao : Script) (b2h : Nat → String) (c : Cell) :
    List String :=
  match c.blockNumber with
  | none => []
  | some bn =>
    if isDAODeposit dao c then [b2h bn]
    else if isDAOWithdrawal dao c then [b2h bn, b2h (le64unpack c.data)]
    else []

lemma addHeaderDepsGo_ok (dao : Script) (b2h : Nat → String) :
    ∀ (cs : List Cell) (acc : List String),
    (∀ c ∈ cs, c.blockNumber ≠ none) →
    addHeaderDepsGo dao b2h cs acc =
      Except.ok
        (dedupInto acc ((cs.map (headerContribution dao b2h)).flatten)) := by
  intro cs
  induction cs with
  | nil =>
    intro acc _
    rfl
  | cons c cs ih =>
    intro acc h
    have hc : c.blockNumber ≠ none := h c (List.mem_cons_self c cs)
    have h' : ∀ x ∈ cs, x.blockNumber ≠ none :=
      fun x hx => h x (List.mem_cons_of_mem c hx)
    cases hbn : c.blockNumber with
    | none => exact absurd hbn hc
    | some bn =>
      simp only [addHeaderDepsGo, hbn, List.map_cons, List.flatten_cons,
        headerContribution]
      split_ifs with hd hw
      · rw [ih _ h']
        rfl
      · rw [ih _ h']
        rfl
      · rw [ih _ h']
        rfl

lemma addHeaderDepsGo_err (dao : Script) (b2h : Nat → String) :
    ∀ (cs : List Cell), (∃ c ∈ cs, c.blockNumber = none) →
    ∀ acc, addHeaderDepsGo dao b2h cs acc =
      Except.error BuildError.MissingBlockNumber := by
  intro cs
  induction cs with
  | nil =>
    rintro ⟨c, hc, _⟩
    simp at hc
  | cons c cs ih =>
    rintro ⟨d, hd, hdn⟩ acc
    rcases List.mem_cons.mp hd with rfl | hd'
    · simp only [addHeaderDepsGo, hdn]
    · cases hbn : c.blockNumber with
      | none => simp only [addHeaderDepsGo, hbn]
      | some bn =>
        simp only [addHeaderDepsGo, hbn]
        have hex : ∃ x ∈ cs, x.blockNumber = none := ⟨d, hd', hdn⟩
        split_ifs <;> exact ih hex _

/-- C4: for every input list where each input carries a block number,
`addHeaderDeps` emits, deduplicated and in first-insertion order, exactly
the per-input contributions (nothing for an ordinary input, the containing
block's hash for a maturity-deposit input, the containing block's hash and
the payload-decoded deposit block's hash for a maturity-withdrawal input);
an input lacking a block number fails with `MissingBlockNumber`. -/
theorem claim_C4_headerDeps (dao : Script) (b2h : Nat → String)
    (tx : TransactionSkeleton) (h0 : tx.headerDeps = []) :
    ((∀ c ∈ tx.inputs, c.blockNumber ≠ none) →
      addHeaderDeps dao b2h tx =
        Except.ok { tx with headerDeps := dedupFirst ((tx.inputs.map (headerContribution dao b2h)).flatten) }) ∧
    ((∃ c ∈ tx.inputs, c.blockNumber = none) →
      addHeaderDeps dao b2h tx =
        Except.error BuildError.MissingBlockNumber) := by
  constructor
  · intro h
    unfold addHeaderDeps
    rw [if_neg (by simp [h0]), addHeaderDepsGo_ok dao b2h tx.inputs [] h]
    rfl
  · intro h
    unfold addHeaderDeps
    rw [if_neg (by simp [h0]), addHeaderDepsGo_err dao b2h tx.inputs h []]

/-- Witness fixtures: a DAO script, an account lock, a block-hash
resolver, and one cell of each classification. -/
def daoScriptW : Script :=
  { codeHash := "0xdao", hashType := "type", args := "0x" }

def lockScriptW : Script :=
  { codeHash := "0xlock", hashType := "type", args := "0xaa" }

def hashOfW : Nat → String := fun n => Nat.repr n

def depositCellW : Cell :=
  { cellOutput := { capacity := 100, lock := lockScriptW, type := some daoScriptW }
  , data := List.replicate 8 0
  , blockNumber := some 5 }

def withdrawalCellW : Cell :=
  { cellOutput := { capacity := 100, lock := lockScriptW, type := some daoScriptW }
  , data := [3, 0, 0, 0, 0, 0, 0, 0]
  , blockNumber := some 9 }

def ordinaryCellW : Cell :=
  { cellOutput := { capacity := 50, lock := lockScriptW, type := none }
  , data := []
  , blockNumber := some 7 }

def noBlockCellW : Cell :=
  { cellOutput := { capacity := 25, lock := lockScriptW, type := none }
  , data := []
  , blockNumber := none }

/-- Witness for C4: the resolver run on one deposit, one withdrawal and
one ordinary input, and the failing run on an input lacking a block
number. -/
theorem claim_C4_headerDeps_witness :
    addHeaderDeps daoScriptW hashOfW
        (freshSkeleton [depositCellW, withdrawalCellW, ordinaryCellW] []) =
      Except.ok { freshSkeleton [depositCellW, withdrawalCellW, ordinaryCellW] [] with headerDeps := dedupFirst (([depositCellW, withdrawalCellW, ordinaryCellW].map (headerContribution daoScriptW hashOfW)).flatten) } ∧
    addHeaderDeps daoScriptW hashOfW (freshSkeleton [noBlockCellW] []) =
      Except.error BuildError.MissingBlockNumber :=
  ⟨(claim_C4_headerDeps daoScriptW hashOfW
      (freshSkeleton [depositCellW, withdrawalCellW, ordinaryCellW] []) rfl).1
      (by decide),
    (claim_C4_headerDeps daoScriptW hashOfW (freshSkeleton [noBlockCellW] []) rfl).2
      (by decide)⟩

/-- C9: each dependency resolver invoked on a skeleton whose target field
is already non-empty fails with `AlreadyPopulated` instead of appending:
`addCellDeps` when cellDeps is non-empty, `addHeaderDeps` when headerDeps
is non-empty. -/
theorem claim_C9_alreadyPopulated
    (lookup : String → String → Option (List CellDep)) (dao : Script)
    (b2h : Nat → String) (tx : TransactionSkeleton) :
    (tx.cellDeps ≠ [] →
      addCellDeps lookup tx = Except.error BuildError.AlreadyPopulated) ∧
    (tx.headerDeps ≠ [] →
      addHeaderDeps dao b2h tx = Except.error BuildError.AlreadyPopulated) := by
  constructor
  · intro h
    unfold addCellDeps
    rw [if_pos (fun hl => h (List.length_eq_zero.mp hl))]
  · intro h
    unfold addHeaderDeps
    rw [if_pos (fun hl => h (List.length_eq_zero.mp hl))]

/-- A skeleton whose cellDeps and headerDeps are already populated. -/
def populatedSkelW : TransactionSkeleton :=
  { inputs := [], outputs := []
  , cellDeps := [{ txHash := "0xtx", index := 0, depType := "code" }]
  , headerDeps := ["0xabc"], inputSinces := [], witnesses := [] }

/-- Witness for C9: both resolvers fail on the populated skeleton. -/
theorem claim_C9_alreadyPopulated_witness :
    addCellDeps (fun _ _ => some []) populatedSkelW =
      Except.error BuildError.AlreadyPopulated ∧
    addHeaderDeps daoScriptW hashOfW populatedSkelW =
      Except.error BuildError.AlreadyPopulated :=
  ⟨(claim_C9_alreadyPopulated (fun _ _ => some []) daoScriptW hashOfW
      populatedSkelW).1 (by decide),
    (claim_C9_alreadyPopulated (fun _ _ => some []) daoScriptW hashOfW
      populatedSkelW).2 (by decide)⟩

/-- The dependency list a script resolves to, with an empty default (only
used under the everything-resolvable hypothesis). -/
def scriptDeps (lookup : String → String → Option (List CellDep))
    (s : Script) : List CellDep :=
  (lookup s.codeHash s.hashType).getD []

lemma resolveScripts_ok (lookup : String → String → Option (List CellDep)) :
    ∀ (ss : List Script),
    (∀ s ∈ ss, lookup s.codeHash s.hashType ≠ none) →
    resolveScripts lookup ss = Except.ok (ss.map (scriptDeps lookup)) := by
  intro ss
  induction ss with
  | nil =>
    intro _
    rfl
  | cons s ss ih =>
    intro h
    have hs := h s (List.mem_cons_self s ss)
    cases hls : lookup s.codeHash s.hashType with
    | none => exact absurd hls hs
    | some ds =>
      simp only [resolveScripts, hls,
        ih (fun x hx => h x (List.mem_cons_of_mem s hx))]
      simp [scriptDeps, hls]

lemma resolveScripts_err (lookup : String → String → Option (List CellDep)) :
    ∀ (ss : List Script),
    (∃ s ∈ ss, lookup s.codeHash s.hashType = none) →
    resolveScripts lookup ss = Except.error BuildError.UnresolvedScript := by
  intro ss
  induction ss with
  | nil =>
    rintro ⟨s, hs, _⟩
    simp at hs
  | cons s ss ih =>
    rintro ⟨t, ht, htn⟩
    rcases List.mem_cons.mp ht with rfl | ht'
    · simp only [resolveScripts, htn]
    · cases hls : lookup s.codeHash s.hashType with
      | none => simp only [resolveScripts, hls]
      | some ds => simp only [resolveScripts, hls, ih ⟨t, ht', htn⟩]

lemma resolveScripts_ok_elim
    (lookup : String → String → Option (List CellDep)) :
    ∀ (ss : List Script) (dss : List (List CellDep)),
    resolveScripts lookup ss = Except.ok dss →
    ∀ s ∈ ss, lookup s.codeHash s.hashType ≠ none := by
  intro ss
  induction ss with
  | nil =>
    intro dss _ s hs
    simp at hs
  | cons s ss ih =>
    intro dss h t ht
    rcases List.mem_cons.mp ht with rfl | ht'
    · cases hls : lookup t.codeHash t.hashType with
      | none =>
        rw [resolveScripts, hls] at h
        exact absurd h (by simp)
      | some ds => simp [hls]
    · cases hls : lookup s.codeHash s.hashType with
      | none =>
        rw [resolveScripts, hls] at h
        exact absurd h (by simp)
      | some ds =>
        rw [resolveScripts, hls] at h
        cases hr : resolveScripts lookup ss with
        | error e =>
          rw [hr] at h
          exact absurd h (by simp)
        | ok rest => exact ih rest hr t ht'

lemma addCellDeps_ok_inv (lookup : String → String → Option (List CellDep))
    (inputs outputs : List Cell) (sk : TransactionSkeleton)
    (h : addCellDeps lookup (freshSkeleton inputs outputs) = Except.ok sk) :
    sk.cellDeps =
      dedupFirst
        (((collectScripts inputs outputs).map (scriptDeps lookup)).flatten) := by
  rw [addCellDeps, if_neg (by simp [freshSkeleton])] at h
  cases hr : resolveScripts lookup
      (collectScripts (freshSkeleton inputs outputs).inputs
        (freshSkeleton inputs outputs).outputs) with
  | error e =>
    rw [hr] at h
    exact absurd h (by simp)
  | ok dss =>
    rw [hr] at h
    have hall := resolveScripts_ok_elim lookup _ dss hr
    have hok := resolveScripts_ok lookup
      (collectScripts (freshSkeleton inputs outputs).inputs
        (freshSkeleton inputs outputs).outputs) hall
    have hdss : dss = (collectScripts (freshSkeleton inputs outputs).inputs
        (freshSkeleton inputs outputs).outputs).map (scriptDeps lookup) := by
      have h2 := hr.symm.trans hok
      simpa using h2
    injection h with h
    subst h
    simp only []
    rw [hdss]
    rfl

lemma mem_flatten_map_scripts
    (lookup : String → String → Option (List CellDep)) (ss : List Script)
    (d : CellDep) :
    d ∈ (ss.map (scriptDeps lookup)).flatten ↔
      ∃ s ∈ ss, d ∈ scriptDeps lookup s := by
  simp [List.mem_flatten]

lemma collectScripts_perm (inputs inputs2 outputs : List Cell)
    (hperm : inputs.Perm inputs2) :
    (collectScripts inputs outputs).Perm (collectScripts inputs2 outputs) := by
  unfold collectScripts
  exact (hperm.map _).append
    ((hperm.append_left outputs).filterMap _)

/-- C5: `addCellDeps` collects every lock script of the inputs and every
present type script of the inputs and outputs, fails with
`UnresolvedScript` when a collected script has no known dependency set,
and emits the union of the required CellDep entries deduplicated by
(outPoint, depType) in first-seen order; hence two inputs sharing a lock
script contribute their dependency once (the emitted list has no
duplicates), and reordering the inputs does not change the resulting
set. -/
theorem claim_C5_cellDeps (lookup : String → String → Option (List CellDep))
    (inputs outputs inputs2 : List Cell) (hperm : inputs.Perm inputs2) :
    ((∀ s ∈ collectScripts inputs outputs,
        lookup s.codeHash s.hashType ≠ none) →
      addCellDeps lookup (freshSkeleton inputs outputs) =
        Except.ok { freshSkeleton inputs outputs with cellDeps := dedupFirst (((collectScripts inputs outputs).map (scriptDeps lookup)).flatten) }) ∧
    ((∃ s ∈ collectScripts inputs outputs,
        lookup s.codeHash s.hashType = none) →
      addCellDeps lookup (freshSkeleton inputs outputs) =
        Except.error BuildError.UnresolvedScript) ∧
    (dedupFirst
      (((collectScripts inputs outputs).map (scriptDeps lookup)).flatten)).Nodup ∧
    (∀ sk1 sk2,
      addCellDeps lookup (freshSkeleton inputs outputs) = Except.ok sk1 →
      addCellDeps lookup (freshSkeleton inputs2 outputs) = Except.ok sk2 →
      ∀ d, d ∈ sk1.cellDeps ↔ d ∈ sk2.cellDeps) := by
  refine ⟨?_, ?_, nodup_dedupFirst _, ?_⟩
  · intro h
    rw [addCellDeps, if_neg (by simp [freshSkeleton])]
    simp only [freshSkeleton]
    rw [resolveScripts_ok lookup _ h]
  · intro h
    rw [addCellDeps, if_neg (by simp [freshSkeleton])]
    simp only [freshSkeleton]
    rw [resolveScripts_err lookup _ h]
  · intro sk1 sk2 h1 h2 d
    rw [addCellDeps_ok_inv lookup inputs outputs sk1 h1,
      addCellDeps_ok_inv lookup inputs2 outputs sk2 h2,
      mem_dedupFirst, mem_dedupFirst,
      mem_flatten_map_scripts, mem_flatten_map_scripts]
    constructor
    · rintro ⟨s, hs, hd⟩
      exact ⟨s, (collectScripts_perm inputs inputs2 outputs hperm).mem_iff.mp hs,
        hd⟩
    · rintro ⟨s, hs, hd⟩
      exact ⟨s,
        (collectScripts_perm inputs inputs2 outputs hperm).mem_iff.mpr hs, hd⟩

/-- A concrete dependency lookup for the witnesses: the account lock and
the DAO script each resolve to one CellDep; everything else is unknown. -/
def lookupW : String → String → Option (List CellDep) :=
  fun ch _ =>
    if ch == "0xlock" then some [{ txHash := "0xdepA", index := 0, depType := "depGroup" }]
    else if ch == "0xdao" then some [{ txHash := "0xdepB", index := 1, depType := "code" }]
    else none

/-- Witness for C5: the resolver run on two inputs that share the account
lock (dependency emitted once), and the failing run on an input whose lock
has no known dependency set. -/
theorem claim_C5_cellDeps_witness :
    addCellDeps lookupW (freshSkeleton [ordinaryCellW, ordinaryCellW] []) =
      Except.ok { freshSkeleton [ordinaryCellW, ordinaryCellW] [] with cellDeps := dedupFirst (((collectScripts [ordinaryCellW, ordinaryCellW] []).map (scriptDeps lookupW)).flatten) } ∧
    addCellDeps lookupW
        (freshSkeleton [{ cellOutput := { capacity := 1, lock := { codeHash := "0xother", hashType := "type", args := "0x" }, type := none }, data := [], blockNumber := some 1 }] []) =
      Except.error BuildError.UnresolvedScript :=
  ⟨(claim_C5_cellDeps lookupW [ordinaryCellW, ordinaryCellW] []
      [ordinaryCellW, ordinaryCellW] (List.Perm.refl _)).1 (by decide),
    (claim_C5_cellDeps lookupW
      [{ cellOutput := { capacity := 1, lock := { codeHash := "0xother", hashType := "type", args := "0x" }, type := none }, data := [], blockNumber := some 1 }]
      []
      [{ cellOutput := { capacity := 1, lock := { codeHash := "0xother", hashType := "type", args := "0x" }, type := none }, data := [], blockNumber := some 1 }]
      (List.Perm.refl _)).2.1 (by decide)⟩

/-- C10: if `add("input", position, ...cells)` is called with any cell
lacking a blockNumber, it reports the missing-block-number error only
after the new cells have already been appended (or prepended) to the
builder's input list: the resulting state's inputs contain the offending
cells despite the error. -/
theorem claim_C10_addMutatesBeforeThrow (st : BuilderState)
    (position : String) (cells : List Cell)
    (h : ∃ c ∈ cells, c.blockNumber = none) :
    (addCells st "input" position cells).2 =
      some BuildError.MissingBlockNumber ∧
    (addCells st "input" position cells).1.inputs =
      (if position == "start" then cells ++ st.inputs
       else st.inputs ++ cells) := by
  obtain ⟨c, hc, hcn⟩ := h
  have hany : (if position == "start" then cells ++ st.inputs
      else st.inputs ++ cells).any (fun c => c.blockNumber.isNone) = true := by
    rw [List.any_eq_true]
    refine ⟨c, ?_, by simp [hcn]⟩
    split <;> simp [hc]
  simp only [addCells, beq_self_eq_true, if_true, hany]
  exact ⟨trivial, trivial⟩

/-- Witness for C10: appending a cell without a block number to a builder
holding one ordinary input errors, yet the offending cell is in the
resulting input list. -/
theorem claim_C10_addMutatesBeforeThrow_witness :
    (addCells { inputs := [ordinaryCellW], outputs := [] } "input" "end"
      [noBlockCellW]).2 = some BuildError.MissingBlockNumber ∧
    (addCells { inputs := [ordinaryCellW], outputs := [] } "input" "end"
      [noBlockCellW]).1.inputs =
      (if ("end" : String) == "start" then [noBlockCellW] ++ [ordinaryCellW]
       else [ordinaryCellW] ++ [noBlockCellW]) :=
  claim_C10_addMutatesBeforeThrow { inputs := [ordinaryCellW], outputs := [] }
    "end" [noBlockCellW] (by decide)

/-- An all-blank script, part of the out-of-range defaults below. -/
def blankScript : Script := { codeHash := "", hashType := "", args := "" }

/-- An all-blank cell, used only as the out-of-range default of indexed
access in theorem statements. -/
def blankCell : Cell :=
  { cellOutput := { capacity := 0, lock := blankScript, type := none }
  , data := [], blockNumber := none }

/-- An all-blank witness, used only as the out-of-range default of indexed
access in theorem statements. -/
def blankWitness : WitnessArgs := { lock := [], inputType := none }

/-- The number of inputs of a list whose lock equals the account lock. -/
def matchCount (accountLock : Script) (cs : List Cell) : Nat :=
  (cs.filter (fun c => scriptEq c.cellOutput.lock accountLock)).length

lemma matchCount_take_le (accountLock : Script) (cs : List Cell) (i : Nat) :
    matchCount accountLock (cs.take i) ≤ i := by
  unfold matchCount
  calc (List.filter (fun c => scriptEq c.cellOutput.lock accountLock)
      (cs.take i)).length ≤ (cs.take i).length := List.length_filter_le _ _
  _ ≤ i := by
       rw [List.length_take]
       omega

lemma addWitnessPlaceholdersGo_spec (dao accountLock : Script)
    (b2h : Nat → String) (hd : List String) :
    ∀ (cs : List Cell) (countDown : Nat) (ws : List WitnessArgs),
    addWitnessPlaceholdersGo dao accountLock b2h hd cs countDown =
      Except.ok ws →
    ws.length = cs.length ∧
    ∀ i, i < cs.length →
      (ws.getD i blankWitness).lock =
        (if scriptEq (cs.getD i blankCell).cellOutput.lock accountLock = true ∧
            matchCount accountLock (cs.take i) < countDown
         then signaturePlaceholder else []) := by
  intro cs
  induction cs with
  | nil =>
    intro countDown ws h
    simp only [addWitnessPlaceholdersGo] at h
    injection h with h
    subst h
    exact ⟨rfl, by intro i hi; simp at hi⟩
  | cons c cs ih =>
    intro countDown ws h
    simp only [addWitnessPlaceholdersGo] at h
    revert h
    cases hE : (if isDAODeposit dao c = true then
        match hd.findIdx? (fun v => v == b2h (le64unpack c.data)) with
        | none => Except.error BuildError.HeaderDepNotFound
        | some idx => Except.ok (some (le64pack idx))
      else Except.ok none : Except BuildError (Option (List Nat))) with
    | error e =>
      intro h
      exact absurd h (by simp)
    | ok it =>
      intro h
      revert h
      cases hrec : addWitnessPlaceholdersGo dao accountLock b2h hd cs
          (if (decide (0 < countDown) &&
              scriptEq c.cellOutput.lock accountLock) = true
           then countDown - 1 else countDown) with
      | error e =>
        intro h
        exact absurd h (by simp)
      | ok ws2 =>
        intro h
        injection h with h
        subst h
        obtain ⟨hlen, hspec⟩ := ih _ ws2 hrec
        refine ⟨by simp [hlen], ?_⟩
        intro i hi
        by_cases hsc : scriptEq c.cellOutput.lock accountLock = true
        · cases countDown with
          | zero =>
            cases i with
            | zero =>
              simp only [List.getD_cons_zero, List.take_zero]
              simp [matchCount]
            | succ i =>
              have hi2 : i < cs.length := by simpa using hi
              have hs := hspec i hi2
              have hpad0 : (decide ((0 : Nat) < 0) &&
                  scriptEq c.cellOutput.lock accountLock) = false := by simp
              simp only [hpad0, Bool.false_eq_true, if_false] at hs
              simp only [List.getD_cons_succ, List.take_succ_cons]
              rw [hs, if_neg (by
                  rintro ⟨_, hx⟩
                  omega),
                if_neg (by
                  rintro ⟨_, hx⟩
                  omega)]
          | succ k =>
            have hpadt : (decide (0 < k + 1) &&
                scriptEq c.cellOutput.lock accountLock) = true := by
              simp [hsc]
            cases i with
            | zero =>
              simp only [List.getD_cons_zero, List.take_zero]
              simp [hpadt, hsc, matchCount]
            | succ i =>
              have hi2 : i < cs.length := by simpa using hi
              have hs := hspec i hi2
              have hmc : matchCount accountLock (c :: cs.take i) =
                  matchCount accountLock (cs.take i) + 1 := by
                simp [matchCount, hsc]
              simp only [hpadt, if_true] at hs
              simp only [List.getD_cons_succ, List.take_succ_cons]
              rw [hs]
              by_cases hm : scriptEq (cs.getD i blankCell).cellOutput.lock
                  accountLock = true
              · by_cases hlt : matchCount accountLock (cs.take i) < k + 1 - 1
                · rw [if_pos ⟨hm, hlt⟩, if_pos ⟨hm, by rw [hmc]; omega⟩]
                · rw [if_neg (by tauto), if_neg (by
                    rintro ⟨_, hx⟩
                    rw [hmc] at hx
                    omega)]
              · rw [if_neg (by tauto), if_neg (by tauto)]
        · have hscf : scriptEq c.cellOutput.lock accountLock = false := by
            simp only [Bool.not_eq_true] at hsc
            exact hsc
          have hpadf : (decide (0 < countDown) &&
              scriptEq c.cellOutput.lock accountLock) = false := by
            simp [hscf]
          cases i with
          | zero =>
            simp only [List.getD_cons_zero, List.take_zero]
            simp [hpadf, hscf, matchCount]
          | succ i =>
            have hi2 : i < cs.length := by simpa using hi
            have hs := hspec i hi2
            have hmc : matchCount accountLock (c :: cs.take i) =
                matchCount accountLock (cs.take i) := by
              simp [matchCount, hscf]
            simp only [hpadf, Bool.false_eq_true, if_false] at hs
            simp only [List.getD_cons_succ, List.take_succ_cons]
            rw [hs]
            by_cases hm : scriptEq (cs.getD i blankCell).cellOutput.lock
                accountLock = true
            · by_cases hlt : matchCount accountLock (cs.take i) < countDown
              · rw [if_pos ⟨hm, hlt⟩, if_pos ⟨hm, by rw [hmc]; exact hlt⟩]
              · rw [if_neg (by tauto), if_neg (by
                  rintro ⟨_, hx⟩
                  rw [hmc] at hx
                  exact hlt hx)]
            · rw [if_neg (by tauto), if_neg (by tauto)]

/-- C8: in `addWitnessPlaceholders`, exactly one input whose lock equals
the signing account's lock (the first such occurrence in input order, the
one with no earlier matching input) receives the 65-byte zero-filled
signature placeholder and every other witness's lock field stays empty —
unless the account lock is of the allow-listed multisig-compatible
(PWLOCK) script kind, in which case every input whose lock equals the
account lock receives the full-length placeholder. -/
theorem claim_C8_witnessPadding (dao : Script) (pwlockInConfig : Bool)
    (pwlockScript accountLock : Script) (b2h : Nat → String)
    (tx sk : TransactionSkeleton) (hw : tx.witnesses = [])
    (hok : addWitnessPlaceholders dao pwlockInConfig pwlockScript accountLock
      b2h tx = Except.ok sk) :
    sk.witnesses.length = tx.inputs.length ∧
    ((pwlockInConfig && isScript accountLock pwlockScript) = false →
      ∀ i, i < tx.inputs.length →
        (sk.witnesses.getD i blankWitness).lock =
          (if scriptEq (tx.inputs.getD i blankCell).cellOutput.lock
                accountLock = true ∧
              matchCount accountLock (tx.inputs.take i) = 0
           then signaturePlaceholder else [])) ∧
    ((pwlockInConfig && isScript accountLock pwlockScript) = true →
      ∀ i, i < tx.inputs.length →
        (sk.witnesses.getD i blankWitness).lock =
          (if scriptEq (tx.inputs.getD i blankCell).cellOutput.lock
                accountLock = true
           then signaturePlaceholder else [])) := by
  rw [addWitnessPlaceholders, if_neg (by simp [hw])] at hok
  cases hgo : addWitnessPlaceholdersGo dao accountLock b2h tx.headerDeps
      tx.inputs
      (if (pwlockInConfig && isScript accountLock pwlockScript) = true
       then tx.inputs.length else 1) with
  | error e =>
    rw [hgo] at hok
    exact absurd hok (by simp)
  | ok ws =>
    rw [hgo] at hok
    injection hok with hok
    subst hok
    obtain ⟨hlen, hspec⟩ := addWitnessPlaceholdersGo_spec dao accountLock b2h
      tx.headerDeps tx.inputs _ ws hgo
    have hproj : ({ tx with witnesses := ws } :
        TransactionSkeleton).witnesses = ws := rfl
    refine ⟨by rw [hproj]; exact hlen, ?_, ?_⟩
    · intro hpw i hi
      have hs := hspec i hi
      simp only [hpw, Bool.false_eq_true, if_false] at hs
      rw [hproj, hs]
      exact if_congr (and_congr_right fun _ => by omega) rfl rfl
    · intro hpw i hi
      have hs := hspec i hi
      simp only [hpw, if_true] at hs
      rw [hproj, hs]
      refine if_congr ?_ rfl rfl
      constructor
      · rintro ⟨hm, _⟩
        exact hm
      · intro hm
        exact ⟨hm, lt_of_le_of_lt (matchCount_take_le accountLock tx.inputs i)
          hi⟩

/-- The configured PWLOCK script of the witness scenario. -/
def pwlockScriptW : Script :=
  { codeHash := "0xpw", hashType := "type", args := "0x" }

/-- An account lock of the PWLOCK kind (same codeHash and hashType,
different args). -/
def pwAccountLockW : Script :=
  { codeHash := "0xpw", hashType := "type", args := "0xbb" }

/-- An ordinary input locked by the PWLOCK-kind account lock. -/
def pwCellW : Cell :=
  { cellOutput := { capacity := 10, lock := pwAccountLockW, type := none }
  , data := [], blockNumber := some 2 }

/-- Witness for C8: with PWLOCK configured and an account lock of that
kind, both of two inputs sharing the account lock receive the full-length
placeholder (shown at index 1, the second occurrence). -/
theorem claim_C8_witnessPadding_witness :
    ((({ freshSkeleton [pwCellW, pwCellW] [] with witnesses := [{ lock := signaturePlaceholder, inputType := none }, { lock := signaturePlaceholder, inputType := none }] } : TransactionSkeleton).witnesses.getD 1 blankWitness).lock =
      (if scriptEq (([pwCellW, pwCellW].getD 1 blankCell)).cellOutput.lock
            pwAccountLockW = true
       then signaturePlaceholder else [])) :=
  (claim_C8_witnessPadding daoScriptW true pwlockScriptW pwAccountLockW
    hashOfW (freshSkeleton [pwCellW, pwCellW] [])
    { freshSkeleton [pwCellW, pwCellW] [] with witnesses := [{ lock := signaturePlaceholder, inputType := none }, { lock := signaturePlaceholder, inputType := none }] }
    rfl rfl).2.2 rfl 1 (by decide)

lemma addCellDeps_ok_out (lookup : String → String → Option (List CellDep))
    (tx sk : TransactionSkeleton) (h : addCellDeps lookup tx = Except.ok sk) :
    sk.outputs = tx.outputs := by
  rw [addCellDeps] at h
  split at h
  · simp at h
  · split at h
    · simp at h
    · injection h with h
      subst h
      rfl

lemma addHeaderDeps_ok_out (dao : Script) (b2h : Nat → String)
    (tx sk : TransactionSkeleton) (h : addHeaderDeps dao b2h tx = Except.ok sk) :
    sk.outputs = tx.outputs := by
  rw [addHeaderDeps] at h
  split at h
  · simp at h
  · split at h
    · simp at h
    · injection h with h
      subst h
      rfl

lemma addInputSinces_ok_out (dao : Script)
    (sinceOf : Cell → Except BuildError Int) (tx sk : TransactionSkeleton)
    (h : addInputSinces dao sinceOf tx = Except.ok sk) :
    sk.outputs = tx.outputs := by
  rw [addInputSinces] at h
  split at h
  · simp at h
  · split at h
    · simp at h
    · injection h with h
      subst h
      rfl

lemma addWitnessPlaceholders_ok_out (dao : Script) (pwlockInConfig : Bool)
    (pwlockScript accountLock : Script) (b2h : Nat → String)
    (tx sk : TransactionSkeleton)
    (h : addWitnessPlaceholders dao pwlockInConfig pwlockScript accountLock
      b2h tx = Except.ok sk) :
    sk.outputs = tx.outputs := by
  rw [addWitnessPlaceholders] at h
  split at h
  · simp at h
  · split at h
    · simp at h
    · injection h with h
      subst h
      rfl

/-- C7: `buildWithChange(delta)` appends no change output when the delta
is exactly zero; for a non-zero delta it appends a single change output of
capacity delta locked by the account lock when the delta is at least the
minimal viable cell capacity, and otherwise fails with
`InsufficientFunds`. -/
theorem claim_C7_changeSizing (dao : Script)
    (lookup : String → String → Option (List CellDep))
    (getHeader : Nat → Header) (earliestSince : Nat → Nat → Int)
    (pwlockInConfig : Bool) (pwlockScript accountLock : Script)
    (minimalCapacity : Int) (inputs outputs : List Cell) (delta : Int) :
    (delta ≠ 0 → delta < minimalCapacity →
      buildWithChange dao lookup getHeader earliestSince pwlockInConfig
        pwlockScript accountLock minimalCapacity inputs outputs delta =
        Except.error BuildError.InsufficientFunds) ∧
    (∀ sk,
      buildWithChange dao lookup getHeader earliestSince pwlockInConfig
        pwlockScript accountLock minimalCapacity inputs outputs delta =
        Except.ok sk →
      sk.outputs = outputs ++
        (if delta = 0 then [] else [changeCell accountLock delta])) := by
  constructor
  · intro h0 hlt
    unfold buildWithChange sizeChangeCells
    rw [if_neg h0, if_neg (not_le.mpr hlt)]
  · intro sk h
    unfold buildWithChange at h
    split at h
    · simp at h
    · rename_i cc heq
      split at h
      · simp at h
      · rename_i tx1 h1
        split at h
        · simp at h
        · rename_i tx2 h2
          split at h
          · simp at h
          · rename_i tx3 h3
            have o4 := addWitnessPlaceholders_ok_out dao pwlockInConfig
              pwlockScript accountLock (fun bn => (getHeader bn).hash)
              tx3 sk h
            have o3 := addInputSinces_ok_out dao
              (withdrawedDaoSince dao getHeader earliestSince) tx2 tx3 h3
            have o2 := addHeaderDeps_ok_out dao
              (fun bn => (getHeader bn).hash) tx1 tx2 h2
            have o1 := addCellDeps_ok_out lookup
              (freshSkeleton inputs (outputs ++ cc)) tx1 h1
            rw [o4, o3, o2, o1]
            rw [sizeChangeCells] at heq
            split at heq
            · rename_i hd0
              injection heq with heq
              subst heq
              rw [if_pos hd0]
              rfl
            · split at heq
              · rename_i hd0 hge
                injection heq with heq
                subst heq
                rw [if_neg hd0]
                rfl
              · simp at heq

/-- The header store of the witnesses: block n's hash is the decimal
rendering of n. -/
def headerOfW : Nat → Header :=
  fun n => { number := n, hash := Nat.repr n, epoch := 0, dao := 0 }

/-- Witness for C7: a negative delta below the minimal capacity fails with
`InsufficientFunds`, and a zero delta builds with the outputs unchanged. -/
theorem claim_C7_changeSizing_witness :
    buildWithChange daoScriptW lookupW headerOfW (fun _ _ => 0) false
      pwlockScriptW lockScriptW 6100000000 [] [] (-5) =
      Except.error BuildError.InsufficientFunds ∧
    (freshSkeleton [] []).outputs =
      [] ++ (if (0 : Int) = 0 then []
             else [changeCell lockScriptW 0]) :=
  ⟨(claim_C7_changeSizing daoScriptW lookupW headerOfW (fun _ _ => 0) false
      pwlockScriptW lockScriptW 6100000000 [] [] (-5)).1 (by decide)
      (by decide),
    (claim_C7_changeSizing daoScriptW lookupW headerOfW (fun _ _ => 0) false
      pwlockScriptW lockScriptW 6100000000 [] [] 0).2
      (freshSkeleton [] []) rfl⟩

/-- C1 (code bug): for a maturity-deposit input contained in block 5, the
header-dependency resolver places the hash of block 5 — the deposit's
containing block — in the header-dependency list at position 0, so the
claim says the packed witness at that index carries inputType = LE64(0);
instead `buildWithChange` fails with `HeaderDepNotFound`, because the
witness builder decodes the block number from the deposit's payload, which
for a deposit is by definition the zero sentinel, and searches the list
for block 0's hash rather than the containing block's. -/
theorem claim_C1_depositWitnessIndex_bug :
    buildWithChange daoScriptW lookupW headerOfW (fun _ _ => 0) false
      pwlockScriptW lockScriptW 6100000000 [depositCellW] [] 0 =
      Except.error BuildError.HeaderDepNotFound ∧
    addHeaderDeps daoScriptW (fun bn => (headerOfW bn).hash)
      (freshSkeleton [depositCellW] []) =
      Except.ok { freshSkeleton [depositCellW] [] with headerDeps := [(headerOfW 5).hash] } ∧
    ([(headerOfW 5).hash].findIdx? (fun v => v == (headerOfW 5).hash)) =
      some 0 :=
  ⟨rfl, rfl, rfl⟩

end CkbUtils
